import Mathlib

/-!
Verification development for the student-finance-tracker repository.

We give a shallow embedding of the core state/query/persistence layer
(storage.js, state.js, search.js, validators.js and the budget check of
ui.js) and settle the specification claims against it.

Modelling conventions:
* JavaScript numbers are modelled as exact rationals (`ℚ`); `toFixed(2)`
  followed by `parseFloat` is modelled by `round2` (round half toward +∞
  at the second decimal, per the ECMAScript "pick the larger n" rule).
* `localStorage` is modelled by explicit state passing of the persisted
  `Record`; every mutator takes the current persisted record and returns
  the new one (together with its boolean result where the source returns
  one).  `saveData` always succeeds in the model (quota errors are out of
  scope of the claims) and stamps `lastUpdated`.
* Clock reads (`Date.now()`, `new Date().toISOString()`) are passed in as
  explicit parameters.
* The JavaScript regular-expression engine is abstracted by a parameter
  `compile : String → Option (String → Bool)`: `compile p` is `none` when
  `new RegExp(p, "i")` would throw, otherwise `some` of the compiled
  matcher's `test` function.
* `new Date(d).getTime()` used by the date sort is abstracted by a
  parameter `dateMs : String → ℚ`.
-/

namespace FinanceTracker

/-- JS `parseFloat(x.toFixed(2))`: round to 2 decimal places, ties toward +∞. -/
def round2 (q : ℚ) : ℚ := ((⌊q * 100 + 1/2⌋ : ℤ) : ℚ) / 100

/-- JS `x || d` for numbers: `0` (falsy) falls back to the default. -/
def jsOr (x d : ℚ) : ℚ := if x = 0 then d else x

/-- JS `s || d` for strings: `""` (falsy) falls back to the default. -/
def jsOrS (x d : String) : String := if x = "" then d else x

/-- JS `String.prototype.toLowerCase()`, codepoint-wise. -/
def jsToLower (s : String) : String := ⟨s.data.map Char.toLower⟩

/-- Whether `s.trim() === ""` holds in JS: every character is whitespace. -/
def isBlank (s : String) : Bool := s.data.all Char.isWhitespace

def splitCharAux (sep : Char) : List Char → List Char → List String
  | [], acc => [⟨acc.reverse⟩]
  | c :: cs, acc =>
    if c = sep then ⟨acc.reverse⟩ :: splitCharAux sep cs []
    else splitCharAux sep cs (c :: acc)

/-- JS `String.prototype.split` with a single-character separator. -/
def splitChar (sep : Char) (s : String) : List String :=
  splitCharAux sep s.data []

def charListLt : List Char → List Char → Bool
  | [], [] => false
  | [], _ :: _ => true
  | _ :: _, [] => false
  | a :: as, b :: bs =>
    if a.toNat < b.toNat then true
    else if b.toNat < a.toNat then false
    else charListLt as bs

/-- JS `<` on strings: lexicographic comparison by code unit. -/
def jsStrLt (a b : String) : Bool := charListLt a.data b.data

/-! ## storage.js constants -/

def STORAGE_KEY : String := "student-finance-tracker"
def DEFAULT_CURRENCY : String := "USD"
def DEFAULT_CATEGORIES : List String :=
  ["Food", "Books", "Transport", "Entertainment", "Fees", "Other"]
def BASE_CURRENCY : String := "RWF"
def USD_TO_RWF : ℚ := 145249 / 100
def EURO_TO_RWF : ℚ := 16814 / 10

/-- A transaction record as stored in the persisted list. -/
structure Transaction where
  id : String
  description : String
  amount : ℚ
  category : String
  date : String
  createdAt : String
  updatedAt : String
  deriving DecidableEq, Repr

/-- The `settings` object of the persisted record. -/
structure Settings where
  currency : String
  monthlyBudget : Option ℚ
  categories : List String
  usdToRwf : ℚ
  eurToRwf : ℚ
  deriving DecidableEq, Repr

def defaultSettings : Settings :=
  { currency := DEFAULT_CURRENCY
    monthlyBudget := none
    categories := DEFAULT_CATEGORIES
    usdToRwf := USD_TO_RWF
    eurToRwf := EURO_TO_RWF }

/-- The persisted root object (`defaultData` shape). -/
structure Record where
  version : String
  settings : Settings
  transactions : List Transaction
  lastUpdated : String
  deriving DecidableEq, Repr

def defaultData (nowIso : String) : Record :=
  { version := "1.0.0"
    settings := defaultSettings
    transactions := []
    lastUpdated := nowIso }

/-- `getCurrencyRates`: rate table relative to RWF, derived from settings.
Unknown currency codes are absent from the JS object, hence `none`. -/
def getCurrencyRates (settings : Settings) : String → Option ℚ := fun c =>
  let usdToRwf := jsOr settings.usdToRwf USD_TO_RWF
  let eurToRwf := jsOr settings.eurToRwf EURO_TO_RWF
  if c = "RWF" then some 1
  else if c = "USD" then some (1 / usdToRwf)
  else if c = "EUR" then some (1 / eurToRwf)
  else none

/-- `convertCurrency(amount, fromCurrency, toCurrency)`.  The settings
argument stands for the persisted settings that `getCurrencyRates` reads
through `getSettings()` at call time.  `rates[c] || 1` is modelled by
`Option.getD _ 1` (the table never stores a falsy rate). -/
def convertCurrency (settings : Settings) (amount : ℚ)
    (fromCurrency toCurrency : String) : ℚ :=
  if fromCurrency = toCurrency then amount
  else
    let rates := getCurrencyRates settings
    let amountInRWF := amount / ((rates fromCurrency).getD 1)
    let convertedAmount := amountInRWF * ((rates toCurrency).getD 1)
    round2 convertedAmount

/-! ## Store operations (storage.js)

Each operation takes the current persisted record and returns the new
persisted record, paired with the boolean the source returns.  `saveData`
is modelled inline: it stamps `lastUpdated` with the supplied clock value
and succeeds. -/

/-- Draft payload for `addTransaction` (what `ui.js` submits). -/
structure Draft where
  description : String
  amount : ℚ
  category : String
  date : Option String
  deriving DecidableEq, Repr

/-- `addTransaction(transaction)`: assigns `id` from `Date.now()`, coerces
the amount, defaults the date to today, prepends, persists. -/
def addTransaction (st : Record) (draft : Draft)
    (nowMs : Nat) (nowIso todayStr : String) : Bool × Record :=
  let newTransaction : Transaction :=
    { id := "txn_" ++ toString nowMs
      description := draft.description
      amount := draft.amount
      category := draft.category
      date := match draft.date with
        | some d => jsOrS d todayStr
        | none => todayStr
      createdAt := nowIso
      updatedAt := nowIso }
  (true, { st with transactions := newTransaction :: st.transactions
                   lastUpdated := nowIso })

/-- A patch for `updateTransaction` (the fields `ui.js` submits; callers
never patch `id`, `createdAt` or `updatedAt`). -/
structure TransactionPatch where
  description : Option String
  amount : Option ℚ
  category : Option String
  date : Option String
  deriving DecidableEq, Repr

def applyTransactionPatch (tx : Transaction) (updates : TransactionPatch)
    (nowIso : String) : Transaction :=
  { tx with
    description := updates.description.getD tx.description
    amount := updates.amount.getD tx.amount
    category := updates.category.getD tx.category
    date := updates.date.getD tx.date
    updatedAt := nowIso }

/-- `updateTransaction(id, updates)`: `findIndex` then in-place merge. -/
def updateTransaction (st : Record) (id : String) (updates : TransactionPatch)
    (nowIso : String) : Bool × Record :=
  match st.transactions.findIdx? (fun tx => tx.id == id) with
  | none => (false, st)
  | some index =>
    let transactions := st.transactions.mapIdx fun j tx =>
      if j = index then applyTransactionPatch tx updates nowIso else tx
    (true, { st with transactions := transactions, lastUpdated := nowIso })

/-- `deleteTransaction(id)`: filters the list and only persists when the
length shrank; otherwise returns `false` and nothing is written. -/
def deleteTransaction (st : Record) (id : String) (nowIso : String) :
    Bool × Record :=
  let remaining := st.transactions.filter (fun tx => tx.id != id)
  if remaining.length < st.transactions.length then
    (true, { st with transactions := remaining, lastUpdated := nowIso })
  else
    (false, st)

/-- A settings patch: only present fields overwrite (JS object spread). -/
structure SettingsPatch where
  currency : Option String
  monthlyBudget : Option (Option ℚ)
  categories : Option (List String)
  usdToRwf : Option ℚ
  eurToRwf : Option ℚ
  deriving DecidableEq, Repr

/-- The empty settings patch. -/
def SettingsPatch.empty : SettingsPatch :=
  { currency := none, monthlyBudget := none, categories := none
    usdToRwf := none, eurToRwf := none }

/-- `{...settings, ...newSettings}`. -/
def mergeSettings (s : Settings) (p : SettingsPatch) : Settings :=
  { currency := p.currency.getD s.currency
    monthlyBudget := p.monthlyBudget.getD s.monthlyBudget
    categories := p.categories.getD s.categories
    usdToRwf := p.usdToRwf.getD s.usdToRwf
    eurToRwf := p.eurToRwf.getD s.eurToRwf }

/-- `updateSettings(newSettings)`.  When the patch changes the currency,
every transaction amount (and a truthy monthly budget) is rewritten with
`convertCurrency`; note that `convertCurrency` reads its rate table from
the settings still persisted at this point (`st.settings`), because the
merged settings are only saved afterwards. -/
def updateSettings (st : Record) (newSettings : SettingsPatch)
    (nowIso : String) : Bool × Record :=
  let oldCurrency := jsOrS st.settings.currency DEFAULT_CURRENCY
  let converted : Record :=
    match newSettings.currency with
    | some newCurrency =>
      if newCurrency ≠ "" ∧ newCurrency ≠ oldCurrency then
        { st with
          transactions := st.transactions.map fun transaction =>
            { transaction with
              amount := convertCurrency st.settings transaction.amount
                oldCurrency newCurrency }
          settings := { st.settings with
            monthlyBudget := match st.settings.monthlyBudget with
              | some b =>
                if b ≠ 0 then
                  some (convertCurrency st.settings b oldCurrency newCurrency)
                else some b
              | none => none } }
      else st
    | none => st
  (true, { converted with
           settings := mergeSettings converted.settings newSettings
           lastUpdated := nowIso })

/-- `clearAllData()`: removes the whole storage key, so a subsequent load
materializes the default record.  (Present in storage.js but not invoked
by the state module, which imports `clearTransactions` instead.) -/
def clearAllData (nowIso : String) : Bool × Record :=
  (true, defaultData nowIso)

/-- Modelled from the spec: storage.js's `clearTransactions() -> bool` is
imported by the state module (`clearTransactions as clearStoredTransactions`)
but its definition is not among the provided sources.  Per the spec it
"empties the transaction list while preserving settings; persists". -/
def clearTransactions (st : Record) (nowIso : String) : Bool × Record :=
  (true, { st with transactions := [], lastUpdated := nowIso })

/-! ## Controller (state.js) -/

/-- Controller `clearAllTransactions`: delegates to the Store's clear,
re-reads the stored transactions, and refreshes the snapshot's
transaction list.  Returns (ok, new persisted record, snapshot list). -/
def clearAllTransactions (st : Record) (nowIso : String) :
    Bool × Record × List Transaction :=
  let cleared := clearTransactions st nowIso
  (cleared.1, cleared.2, cleared.2.transactions)

/-! ## Validators (validators.js) -/

/-- Result of `validateSearchPattern`: validity flag, optional message,
and the compiled matcher when one was produced. -/
structure SearchValidation where
  isValid : Bool
  message : Option String
  regex : Option (String → Bool)

/-- `validateSearchPattern(value)`.  `compile` abstracts `new RegExp(value,
"i")`: `none` when construction throws, otherwise the matcher's `test`.
An empty/whitespace pattern is valid with no regex; construction errors
and patterns longer than 50 characters are invalid. -/
def validateSearchPattern (compile : String → Option (String → Bool))
    (value : String) : SearchValidation :=
  if value = "" ∨ isBlank value then
    { isValid := true, message := none, regex := none }
  else
    match compile value with
    | none =>
      { isValid := false, message := some "Invalid search pattern", regex := none }
    | some regex =>
      if value.length > 50 then
        { isValid := false, message := some "Search pattern is too long", regex := none }
      else
        { isValid := true, message := none, regex := some regex }

/-! ## Query engine (search.js) -/

/-- One step of `sortBy.split("-")` destructuring: field and direction
(direction defaults to "desc" when the component is missing). -/
def parseSortBy (sortBy : String) : String × String :=
  let parts := splitChar '-' sortBy
  (parts.headD "", (parts.drop 1).headD "desc")

/-- The comparator passed to `Array.prototype.sort`, returning a signed
rational.  `dateMs` abstracts `new Date(_).getTime()`. -/
def sortCompare (dateMs : String → ℚ) (field : String) (sortOrder : ℚ)
    (a b : Transaction) : ℚ :=
  if field = "date" then (dateMs a.date - dateMs b.date) * sortOrder
  else if field = "amount" then (a.amount - b.amount) * sortOrder
  else if field = "category" then
    let valueA := jsToLower a.category
    let valueB := jsToLower b.category
    if jsStrLt valueA valueB then -1 * sortOrder
    else if jsStrLt valueB valueA then 1 * sortOrder
    else 0
  else
    let valueA := jsToLower a.description
    let valueB := jsToLower b.description
    if jsStrLt valueA valueB then -1 * sortOrder
    else if jsStrLt valueB valueA then 1 * sortOrder
    else 0

/-- Stable insertion used to model the (specification-stable) ECMAScript
`Array.prototype.sort`: the incoming earlier element is placed before the
first later element it does not compare strictly greater than. -/
def insortC (cmp : Transaction → Transaction → ℚ) (x : Transaction) :
    List Transaction → List Transaction
  | [] => [x]
  | y :: ys => if cmp x y ≤ 0 then x :: y :: ys else y :: insortC cmp x ys

/-- Stable sort by a JS comparator (insertion sort, processing the input
left to right; equal elements keep their original relative order). -/
def stableSort (cmp : Transaction → Transaction → ℚ) :
    List Transaction → List Transaction
  | [] => []
  | x :: xs => insortC cmp x (stableSort cmp xs)

/-- `sortTransactions(transactions, sortBy)`. -/
def sortTransactions (dateMs : String → ℚ) (transactions : List Transaction)
    (sortBy : String) : List Transaction :=
  let fd := parseSortBy sortBy
  let sortOrder : ℚ := if jsToLower fd.2 = "asc" then 1 else -1
  stableSort (sortCompare dateMs fd.1 sortOrder) transactions

/-- `searchTransactions(transactions, {query, category, sortBy, limit})`. -/
def searchTransactions (compile : String → Option (String → Bool))
    (dateMs : String → ℚ) (transactions : List Transaction)
    (query category sortBy : String) (limit : Nat) : List Transaction :=
  let afterCategory :=
    if category ≠ "" then
      transactions.filter fun transaction =>
        jsToLower transaction.category == jsToLower category
    else transactions
  let afterQuery : Option (List Transaction) :=
    if query ≠ "" then
      let v := validateSearchPattern compile query
      match v.regex with
      | some regex =>
        if v.isValid then
          some (afterCategory.filter fun transaction =>
            regex transaction.description || regex transaction.category)
        else none
      | none => if v.isValid then some afterCategory else none
    else some afterCategory
  match afterQuery with
  | none => []
  | some results =>
    let sorted := sortTransactions dateMs results sortBy
    if limit > 0 then sorted.take limit else sorted

/-- Insertion-ordered accumulation of `summary.totals[category] += amount`
(JS objects preserve string-key insertion order). -/
def addToTotals (l : List (String × ℚ)) (c : String) (a : ℚ) :
    List (String × ℚ) :=
  match l with
  | [] => [(c, a)]
  | (c', a') :: rest =>
    if c' = c then (c', a' + a) :: rest else (c', a') :: addToTotals rest c a

/-- The `totals` map of `getCategorySummary`, as an insertion-ordered
association list. -/
def categoryTotals (transactions : List Transaction) : List (String × ℚ) :=
  transactions.foldl
    (fun acc t => addToTotals acc (jsOrS t.category "Uncategorized") t.amount)
    []

/-- `getCategorySummary`'s total amount. -/
def summaryTotalAmount (transactions : List Transaction) : ℚ :=
  (transactions.map (·.amount)).sum

/-- The `Object.entries(...).forEach` fold of `getTopCategory`, keeping the
entry strictly greater than the best so far (starting from `(null, 0)`). -/
def topFold (acc : Option String × ℚ) :
    List (String × ℚ) → Option String × ℚ
  | [] => acc
  | e :: rest => topFold (if e.2 > acc.2 then (some e.1, e.2) else acc) rest

/-- `getTopCategory(transactions)`. -/
def getTopCategory (transactions : List Transaction) : Option String × ℚ :=
  if transactions = [] then (none, 0)
  else topFold (none, 0) (categoryTotals transactions)

/-! ## Budget check (ui.js handleTransactionSubmit) -/

/-- The `YYYY-MM` month key `ui.js` computes from a transaction date via
`getFullYear`/`getMonth`; for the app's validated `YYYY-MM-DD` dates this
is the first seven characters. -/
def monthKeyOf (dateStr : String) : String := dateStr.take 7

/-- The numbers interpolated into the budget-rejection status message:
budget, current spending, remaining headroom, overage. -/
structure BudgetRejection where
  budget : ℚ
  currentSpending : ℚ
  remaining : ℚ
  overage : ℚ
  deriving DecidableEq, Repr

/-- The budget guard of `handleTransactionSubmit`: only for new
transactions (no editing id), only when a positive monthly budget is set;
sums the amounts of the month of the submitted date and rejects when the
new total strictly exceeds the budget. -/
def checkBudgetLimit (currentTransactionId : Option String)
    (settings : Settings) (transactions : List Transaction)
    (txAmount : ℚ) (txDate : String) : Option BudgetRejection :=
  match currentTransactionId with
  | some _ => none
  | none =>
    match settings.monthlyBudget with
    | none => none
    | some monthlyBudget =>
      if monthlyBudget > 0 then
        let transactionMonth := monthKeyOf txDate
        let monthlyTransactions := transactions.filter fun tx =>
          monthKeyOf tx.date == transactionMonth
        let currentMonthTotal := (monthlyTransactions.map (·.amount)).sum
        let newTotal := currentMonthTotal + txAmount
        if newTotal > monthlyBudget then
          some { budget := monthlyBudget
                 currentSpending := currentMonthTotal
                 remaining := monthlyBudget - currentMonthTotal
                 overage := newTotal - monthlyBudget }
        else none
      else none

/-- Outcome of the post-validation part of `handleTransactionSubmit`. -/
inductive SubmitResult where
  | rejected (r : BudgetRejection)
  | added
  | updated
  deriving DecidableEq, Repr

/-- The post-validation part of `handleTransactionSubmit`: run the budget
guard (returning with no mutation on rejection), otherwise add a new
transaction or update the one being edited. -/
def handleTransactionSubmit (currentTransactionId : Option String)
    (st : Record) (draft : Draft) (txDate : String)
    (nowMs : Nat) (nowIso todayStr : String) : SubmitResult × Record :=
  match checkBudgetLimit currentTransactionId st.settings st.transactions
      draft.amount txDate with
  | some r => (.rejected r, st)
  | none =>
    match currentTransactionId with
    | some id =>
      (.updated,
        (updateTransaction st id
          { description := some draft.description, amount := some draft.amount
            category := some draft.category, date := some txDate } nowIso).2)
    | none =>
      (.added, (addTransaction st { draft with date := some txDate }
        nowMs nowIso todayStr).2)

/-! ## Basic facts about rounding -/

theorem round2_sub_le (q : ℚ) : |round2 q - q| ≤ 1 / 200 := by
  have h1 : ((⌊q * 100 + 1/2⌋ : ℤ) : ℚ) ≤ q * 100 + 1/2 := Int.floor_le _
  have h2 : q * 100 + 1/2 < ((⌊q * 100 + 1/2⌋ : ℤ) : ℚ) + 1 := Int.lt_floor_add_one _
  rw [abs_le]
  constructor <;> · simp only [round2]; linarith

theorem round2_eval (q : ℚ) (n : ℤ) (h1 : (n : ℚ) ≤ q * 100 + 1/2)
    (h2 : q * 100 + 1/2 < (n : ℚ) + 1) : round2 q = (n : ℚ) / 100 := by
  rw [round2, Int.floor_eq_iff.mpr ⟨h1, by exact_mod_cast h2⟩]

/-! ## Fixtures for witnesses and counterexamples -/

def mkTx (id description : String) (amount : ℚ) (category date : String) :
    Transaction :=
  { id := id, description := description, amount := amount
    category := category, date := date
    createdAt := "2025-01-01T00:00:00.000Z"
    updatedAt := "2025-01-01T00:00:00.000Z" }

def fixtureRecord : Record :=
  { version := "1.0.0", settings := defaultSettings
    transactions := [mkTx "txn_1" "coffee" 3 "Food" "2025-01-02"]
    lastUpdated := "2025-01-02T00:00:00.000Z" }

/-! ## Claim C1 -/

/-- Claim C1: for every persisted state, the clear-transactions operation
(Store `clearTransactions`, invoked by the Controller's
`clearAllTransactions`) empties the transaction list while leaving every
settings field (currency, monthlyBudget, categories, usdToRwf, eurToRwf)
unchanged in the persisted record. -/
theorem clearAllTransactions_clears_and_preserves_settings
    (st : Record) (nowIso : String) :
    (clearAllTransactions st nowIso).2.1.transactions = [] ∧
    (clearAllTransactions st nowIso).2.2 = [] ∧
    (clearAllTransactions st nowIso).2.1.settings.currency
      = st.settings.currency ∧
    (clearAllTransactions st nowIso).2.1.settings.monthlyBudget
      = st.settings.monthlyBudget ∧
    (clearAllTransactions st nowIso).2.1.settings.categories
      = st.settings.categories ∧
    (clearAllTransactions st nowIso).2.1.settings.usdToRwf
      = st.settings.usdToRwf ∧
    (clearAllTransactions st nowIso).2.1.settings.eurToRwf
      = st.settings.eurToRwf := by
  simp [clearAllTransactions, clearTransactions]

/-! ## Claim C9 -/

/-- Claim C9: deleting an id that is not in the stored transaction list
returns `false` and leaves the persisted record entirely unchanged. -/
theorem deleteTransaction_missing_id_noop (st : Record) (id nowIso : String)
    (h : id ∉ st.transactions.map (·.id)) :
    deleteTransaction st id nowIso = (false, st) := by
  have hfilter : st.transactions.filter (fun tx => tx.id != id)
      = st.transactions := by
    apply List.filter_eq_self.mpr
    intro a ha
    simp only [bne_iff_ne, ne_eq, decide_eq_true_eq]
    intro hEq
    exact h (hEq ▸ List.mem_map_of_mem _ ha)
  simp [deleteTransaction, hfilter]

/-- Witness for C9 at a concrete store and a concrete absent id. -/
theorem deleteTransaction_missing_id_noop_witness :
    deleteTransaction fixtureRecord "txn_999" "2025-02-01T00:00:00.000Z"
      = (false, fixtureRecord) :=
  deleteTransaction_missing_id_noop fixtureRecord "txn_999"
    "2025-02-01T00:00:00.000Z" (by decide)

/-! ## Claim C4 -/

def draftLunch : Draft :=
  { description := "lunch", amount := 5, category := "Food"
    date := some "2025-03-01" }

def draftBus : Draft :=
  { description := "bus", amount := 2, category := "Transport"
    date := some "2025-03-01" }

/-- Two `addTransaction` calls observing the same `Date.now()` value. -/
def sameMillisecondStore : Record :=
  (addTransaction
    (addTransaction (defaultData "t0") draftLunch 1000 "i1" "2025-03-01").2
    draftBus 1000 "i2" "2025-03-01").2

/-- Claim C4 fails on the code: `addTransaction` derives the id from
`Date.now()` alone, so two insertions in the same millisecond (modelled by
equal `nowMs` arguments) store two transactions with the same id, breaking
the claimed uniqueness invariant.  This theorem evaluates the code at that
failing input. -/
theorem addTransaction_same_millisecond_duplicate_ids :
    sameMillisecondStore.transactions.map (·.id) = ["txn_1000", "txn_1000"]
    ∧ ¬ (sameMillisecondStore.transactions.map (·.id)).Nodup := by
  constructor
  · rfl
  · decide

/-! ## Claim C10 -/

/-- Claim C10, as stated, fails: with an unknown code the conversion
formula (rate treated as 1) always rounds to 2 decimals, while
`convertCurrency(x, "RWF", "RWF")` short-circuits on `fromCurrency ===
toCurrency` and returns the amount unrounded, so the claimed equation
`convertCurrency(x, C, B) = convertCurrency(x, "RWF", B)` fails at
`x = 0.001`, `C = "GBP"`, `B = "RWF"`. -/
theorem convertCurrency_unknown_code_counterexample :
    convertCurrency defaultSettings (1/1000) "GBP" "RWF" = 0 ∧
    convertCurrency defaultSettings (1/1000) "RWF" "RWF" = 1/1000 ∧
    convertCurrency defaultSettings (1/1000) "GBP" "RWF"
      ≠ convertCurrency defaultSettings (1/1000) "RWF" "RWF" := by
  have h1 : convertCurrency defaultSettings (1/1000) "GBP" "RWF" = 0 := by
    have hr : round2 ((1:ℚ)/1000 / 1 * 1) = ((0:ℤ):ℚ) / 100 :=
      round2_eval _ 0 (by norm_num) (by norm_num)
    simp only [convertCurrency, getCurrencyRates, defaultSettings, jsOr,
      USD_TO_RWF, EURO_TO_RWF, String.reduceEq, reduceIte, Option.getD_some,
      Option.getD_none] at hr ⊢
    rw [hr]
    norm_num
  have h2 : convertCurrency defaultSettings (1/1000) "RWF" "RWF" = 1/1000 := by
    simp [convertCurrency]
  refine ⟨h1, h2, ?_⟩
  rw [h1, h2]
  norm_num

/-- Claim C10 (amended): for every settings state, amount, and currency
code `C` outside {RWF, USD, EUR}, `convertCurrency` treats `C`'s rate as 1
(the base-currency rate) and raises no error; the claimed equalities with
"RWF" in place of `C` hold whenever the other currency is USD or EUR (the
non-short-circuiting cases). -/
theorem convertCurrency_unknown_code_as_base
    (s : Settings) (x : ℚ) (C : String)
    (hR : C ≠ "RWF") (hU : C ≠ "USD") (hE : C ≠ "EUR") :
    (convertCurrency s x C "USD" = convertCurrency s x "RWF" "USD" ∧
     convertCurrency s x C "EUR" = convertCurrency s x "RWF" "EUR") ∧
    (convertCurrency s x "USD" C = convertCurrency s x "USD" "RWF" ∧
     convertCurrency s x "EUR" C = convertCurrency s x "EUR" "RWF") := by
  simp [convertCurrency, getCurrencyRates, hR, hU, hE, Ne.symm hR,
    Ne.symm hU, Ne.symm hE]

/-- Witness for C10 (amended) at the concrete unknown code "GBP". -/
theorem convertCurrency_unknown_code_as_base_witness :
    (convertCurrency defaultSettings 7 "GBP" "USD"
       = convertCurrency defaultSettings 7 "RWF" "USD" ∧
     convertCurrency defaultSettings 7 "GBP" "EUR"
       = convertCurrency defaultSettings 7 "RWF" "EUR") ∧
    (convertCurrency defaultSettings 7 "USD" "GBP"
       = convertCurrency defaultSettings 7 "USD" "RWF" ∧
     convertCurrency defaultSettings 7 "EUR" "GBP"
       = convertCurrency defaultSettings 7 "EUR" "RWF") :=
  convertCurrency_unknown_code_as_base defaultSettings 7 "GBP"
    (by decide) (by decide) (by decide)

/-! ## Claim C3 -/

/-- Claim C3, as stated, fails: converting 0.5 from RWF to USD rounds
0.000344... down to 0.00, and converting back yields 0, which differs from
the original 0.5 by far more than the claimed ±0.01 tolerance. -/
theorem convertCurrency_roundtrip_counterexample :
    convertCurrency defaultSettings
      (convertCurrency defaultSettings (1/2) "RWF" "USD") "USD" "RWF" = 0 ∧
    ¬ |convertCurrency defaultSettings
        (convertCurrency defaultSettings (1/2) "RWF" "USD") "USD" "RWF"
        - 1/2| ≤ 1/100 := by
  have h1 : convertCurrency defaultSettings (1/2) "RWF" "USD" = 0 := by
    have hr : round2 ((1:ℚ)/2 / 1 * (1 / (145249/100))) = ((0:ℤ):ℚ) / 100 :=
      round2_eval _ 0 (by norm_num) (by norm_num)
    simp only [convertCurrency, getCurrencyRates, defaultSettings, jsOr,
      USD_TO_RWF, EURO_TO_RWF, String.reduceEq, reduceIte, Option.getD_some,
      Option.getD_none] at hr ⊢
    rw [show ((0:ℤ):ℚ) / 100 = 0 by norm_num] at hr
    convert hr using 3 <;> norm_num
  have h2 : convertCurrency defaultSettings 0 "USD" "RWF" = 0 := by
    have hr : round2 ((0:ℚ) / (1 / (145249/100)) * 1) = ((0:ℤ):ℚ) / 100 :=
      round2_eval _ 0 (by norm_num) (by norm_num)
    simp only [convertCurrency, getCurrencyRates, defaultSettings, jsOr,
      USD_TO_RWF, EURO_TO_RWF, String.reduceEq, reduceIte, Option.getD_some,
      Option.getD_none] at hr ⊢
    rw [show ((0:ℤ):ℚ) / 100 = 0 by norm_num] at hr
    convert hr using 3 <;> norm_num
  rw [h1, h2]
  simp only [zero_sub, abs_neg]
  rw [abs_of_nonneg (by norm_num : (0:ℚ) ≤ 1/2)]
  norm_num

/-- Claim C3 (amended): the round trip `convert(convert(x, A, B), B, A)`
is within ±0.01 of `x` whenever the base-rate factor of `A` is at most
that of `B` (the conversion error is `round2` error scaled by
`rates[A]/rates[B]`); with default rates this covers USD→RWF, EUR→RWF,
EUR→USD and all identical pairs, while the opposite direction can lose up
to half an RWF cent times the rate ratio, as the counterexample shows. -/
theorem convertCurrency_roundtrip_within_tolerance
    (s : Settings) (x : ℚ) (A B : String)
    (hA : 0 < ((getCurrencyRates s A).getD 1))
    (hB : 0 < ((getCurrencyRates s B).getD 1))
    (hAB : ((getCurrencyRates s A).getD 1) ≤ ((getCurrencyRates s B).getD 1)) :
    |convertCurrency s (convertCurrency s x A B) B A - x| ≤ 1/100 := by
  by_cases hEq : A = B
  · subst hEq
    simp [convertCurrency]
  · have hBA : ¬ B = A := fun h => hEq h.symm
    set rA : ℚ := (getCurrencyRates s A).getD 1 with hrA
    set rB : ℚ := (getCurrencyRates s B).getD 1 with hrB
    have hA0 : rA ≠ 0 := ne_of_gt hA
    have hB0 : rB ≠ 0 := ne_of_gt hB
    simp only [convertCurrency, if_neg hEq, if_neg hBA, ← hrA, ← hrB]
    set y : ℚ := round2 (x / rA * rB) with hy
    have h1 : |y - x / rA * rB| ≤ 1/200 := round2_sub_le _
    have h2 : |round2 (y / rB * rA) - y / rB * rA| ≤ 1/200 := round2_sub_le _
    have key : y / rB * rA - x = (y - x / rA * rB) * (rA / rB) := by
      field_simp
      ring
    have hratio1 : rA / rB ≤ 1 := (div_le_one hB).mpr hAB
    have hratio0 : 0 ≤ rA / rB := le_of_lt (div_pos hA hB)
    have hmid : |y / rB * rA - x| ≤ 1/200 := by
      rw [key, abs_mul, abs_of_nonneg hratio0]
      calc |y - x / rA * rB| * (rA / rB) ≤ (1/200) * 1 :=
            mul_le_mul h1 hratio1 hratio0 (by norm_num)
        _ = 1/200 := by norm_num
    calc |round2 (y / rB * rA) - x|
        = |(round2 (y / rB * rA) - y / rB * rA) + (y / rB * rA - x)| := by
          ring_nf
      _ ≤ |round2 (y / rB * rA) - y / rB * rA| + |y / rB * rA - x| :=
          abs_add _ _
      _ ≤ 1/200 + 1/200 := add_le_add h2 hmid
      _ = 1/100 := by norm_num

/-- Witness for C3 (amended): the USD→RWF→USD round trip of 3 USD under
default rates stays within a cent. -/
theorem convertCurrency_roundtrip_within_tolerance_witness :
    |convertCurrency defaultSettings
      (convertCurrency defaultSettings 3 "USD" "RWF") "RWF" "USD" - 3|
      ≤ 1/100 :=
  convertCurrency_roundtrip_within_tolerance defaultSettings 3 "USD" "RWF"
    (by simp [getCurrencyRates, defaultSettings, jsOr, USD_TO_RWF,
          EURO_TO_RWF] <;> norm_num)
    (by simp [getCurrencyRates, defaultSettings, jsOr, USD_TO_RWF,
          EURO_TO_RWF] <;> norm_num)
    (by simp [getCurrencyRates, defaultSettings, jsOr, USD_TO_RWF,
          EURO_TO_RWF] <;> norm_num)

/-! ## Claim C6 -/

/-- Claim C6: for every transaction list and every non-empty search query
whose pattern fails validation (it does not compile, or exceeds the
50-character ceiling — both are exactly the `isValid = false` outcomes of
`validateSearchPattern` on a non-empty query), `searchTransactions`
returns the empty list regardless of the list's contents (fail-closed). -/
theorem searchTransactions_fail_closed
    (compile : String → Option (String → Bool)) (dateMs : String → ℚ)
    (transactions : List Transaction) (query category sortBy : String)
    (limit : Nat) (hq : query ≠ "")
    (hinv : (validateSearchPattern compile query).isValid = false) :
    searchTransactions compile dateMs transactions query category sortBy limit
      = [] := by
  have hq' : (query ≠ "") = True := eq_true hq
  cases hreg : (validateSearchPattern compile query).regex <;>
    simp [searchTransactions, hq', hreg, hinv]

/-- Witness for C6: an unbalanced pattern "(" (whose compilation fails)
over a non-empty store yields no results. -/
theorem searchTransactions_fail_closed_witness :
    searchTransactions (fun _ => none) (fun _ => 0)
      fixtureRecord.transactions "(" "" "date-desc" 0 = [] :=
  searchTransactions_fail_closed (fun _ => none) (fun _ => 0)
    fixtureRecord.transactions "(" "" "date-desc" 0 (by decide) rfl

/-! ## Claim C8 -/

/-- Characterization of the strict-improvement fold of `getTopCategory`:
either nothing beats the accumulator, or the result is the first entry
attaining the running maximum. -/
theorem topFold_spec (l : List (String × ℚ)) :
    ∀ acc : Option String × ℚ,
      ((∀ e ∈ l, e.2 ≤ acc.2) ∧ topFold acc l = acc) ∨
      (∃ l1 c v l2, l = l1 ++ (c, v) :: l2 ∧ acc.2 < v ∧
        (∀ e ∈ l1, e.2 < v) ∧ (∀ e ∈ l2, e.2 ≤ v) ∧
        topFold acc l = (some c, v)) := by
  induction l with
  | nil =>
    intro acc
    left
    simp [topFold]
  | cons e rest ih =>
    intro acc
    by_cases h : e.2 > acc.2
    · rcases ih (some e.1, e.2) with ⟨hall, heq⟩ |
        ⟨l1, c, v, l2, hsplit, hlt, hl1, hl2, heq⟩
      · right
        refine ⟨[], e.1, e.2, rest, by simp, h, by simp, ?_, ?_⟩
        · simpa using hall
        · simpa [topFold, if_pos h] using heq
      · right
        refine ⟨e :: l1, c, v, l2, by simp [hsplit], lt_trans h hlt, ?_, hl2, ?_⟩
        · intro x hx
          rcases List.mem_cons.mp hx with hx | hx
          · subst hx; exact hlt
          · exact hl1 x hx
        · simpa [topFold, if_pos h] using heq
    · push_neg at h
      rcases ih acc with ⟨hall, heq⟩ | ⟨l1, c, v, l2, hsplit, hlt, hl1, hl2, heq⟩
      · left
        refine ⟨?_, ?_⟩
        · intro x hx
          rcases List.mem_cons.mp hx with hx | hx
          · subst hx; exact h
          · exact hall x hx
        · simpa [topFold, if_neg (not_lt.mpr h)] using heq
      · right
        refine ⟨e :: l1, c, v, l2, by simp [hsplit], hlt, ?_, hl2, ?_⟩
        · intro x hx
          rcases List.mem_cons.mp hx with hx | hx
          · subst hx; exact lt_of_le_of_lt h hlt
          · exact hl1 x hx
        · simpa [topFold, if_neg (not_lt.mpr h)] using heq

/-- Claim C8, as stated, fails: on the non-empty input of a single
transaction of amount -5 in category "Food" there is a (unique, hence
strictly greatest) summed category, yet `getTopCategory` returns
`{category: null, amount: 0}` because the fold only tracks totals
strictly above its initial 0. -/
theorem getTopCategory_claim_counterexample :
    getTopCategory [mkTx "txn_9" "loss" (-5) "Food" "2025-01-02"]
      = (none, 0) ∧
    categoryTotals [mkTx "txn_9" "loss" (-5) "Food" "2025-01-02"]
      = [("Food", -5)] ∧
    [mkTx "txn_9" "loss" (-5) "Food" "2025-01-02"] ≠ [] := by
  have htot : categoryTotals [mkTx "txn_9" "loss" (-5) "Food" "2025-01-02"]
      = [("Food", -5)] := by
    simp [categoryTotals, addToTotals, jsOrS, mkTx]
  refine ⟨?_, htot, by simp⟩
  rw [getTopCategory, if_neg (by simp), htot]
  simp only [topFold]
  norm_num

/-- Claim C8 (amended): `getTopCategory` returns `{null, 0}` when the
input is empty or no category total is strictly positive; otherwise it
returns the first-encountered entry of the totals map that attains the
strictly greatest summed amount (ties keep the earlier category). -/
theorem getTopCategory_characterization (transactions : List Transaction) :
    ((∀ e ∈ categoryTotals transactions, e.2 ≤ 0) ∧
      getTopCategory transactions = (none, 0)) ∨
    (∃ l1 c v l2, categoryTotals transactions = l1 ++ (c, v) :: l2 ∧
      0 < v ∧ (∀ e ∈ l1, e.2 < v) ∧ (∀ e ∈ l2, e.2 ≤ v) ∧
      getTopCategory transactions = (some c, v)) := by
  cases htx : transactions with
  | nil =>
    left
    simp [getTopCategory, categoryTotals]
  | cons t ts =>
    rcases topFold_spec (categoryTotals (t :: ts)) (none, 0) with
      ⟨hall, heq⟩ | ⟨l1, c, v, l2, hsplit, hlt, hl1, hl2, heq⟩
    · left
      exact ⟨hall, by rw [getTopCategory, if_neg (by simp)]; exact heq⟩
    · right
      exact ⟨l1, c, v, l2, hsplit, hlt, hl1, hl2,
        by rw [getTopCategory, if_neg (by simp)]; exact heq⟩

/-! ## Claim C7 -/

/-- Inserting via the JS comparator preserves, up to the inserted element,
the sublist of any class of pairwise comparator-equal elements. -/
theorem filter_insortC (cmp : Transaction → Transaction → ℚ)
    (p : Transaction → Bool)
    (h : ∀ a b, p a = true → p b = true → cmp a b = 0) (x : Transaction) :
    ∀ l : List Transaction,
      (insortC cmp x l).filter p
        = if p x then x :: l.filter p else l.filter p
  | [] => by cases hp : p x <;> simp [insortC, hp]
  | y :: ys => by
    by_cases hc : cmp x y ≤ 0
    · rw [insortC, if_pos hc, List.filter_cons]
    · rw [insortC, if_neg hc, List.filter_cons]
      cases hp : p x with
      | true =>
        have hpy : p y = false := by
          cases hpy : p y
          · rfl
          · exact absurd (le_of_eq (h x y hp hpy)) hc
        rw [filter_insortC cmp p h x ys]
        simp [hp, hpy, List.filter_cons]
      | false =>
        rw [filter_insortC cmp p h x ys]
        simp [hp, List.filter_cons]

/-- The modelled stable sort keeps every class of pairwise
comparator-equal elements in its original relative order. -/
theorem filter_stableSort (cmp : Transaction → Transaction → ℚ)
    (p : Transaction → Bool)
    (h : ∀ a b, p a = true → p b = true → cmp a b = 0) :
    ∀ l : List Transaction, (stableSort cmp l).filter p = l.filter p
  | [] => rfl
  | x :: xs => by
    rw [stableSort, filter_insortC cmp p h x, filter_stableSort cmp p h xs,
      List.filter_cons]

/-- The spec's stability example: amounts [-10, 5, -10, 20] with dates
increasing, ids t1..t4. -/
def demoTxns : List Transaction :=
  [mkTx "t1" "first" (-10) "Food" "2025-01-01",
   mkTx "t2" "second" 5 "Food" "2025-01-02",
   mkTx "t3" "third" (-10) "Food" "2025-01-03",
   mkTx "t4" "fourth" 20 "Food" "2025-01-04"]

/-- Claim C7: `sortTransactions` is a stable sort — for every transaction
list, the elements of any class of equal comparator keys keep their
original relative order (stated as filter preservation); in particular
the spec example with amounts [-10, 5, -10, 20] sorted by "amount-asc"
yields [-10, -10, 5, 20] with the two -10 transactions (t1 before t3) in
their original relative order. -/
theorem sortTransactions_stable :
    (∀ (dateMs : String → ℚ) (sortBy : String) (p : Transaction → Bool)
       (l : List Transaction),
       (∀ a b, p a = true → p b = true →
         sortCompare dateMs (parseSortBy sortBy).1
           (if jsToLower (parseSortBy sortBy).2 = "asc" then 1 else -1)
           a b = 0) →
       (sortTransactions dateMs l sortBy).filter p = l.filter p) ∧
    (sortTransactions (fun _ => 0) demoTxns "amount-asc").map (·.id)
      = ["t1", "t3", "t2", "t4"] ∧
    (sortTransactions (fun _ => 0) demoTxns "amount-asc").map (·.amount)
      = [-10, -10, 5, 20] := by
  have hsort : sortTransactions (fun _ => 0) demoTxns "amount-asc"
      = [mkTx "t1" "first" (-10) "Food" "2025-01-01",
         mkTx "t3" "third" (-10) "Food" "2025-01-03",
         mkTx "t2" "second" 5 "Food" "2025-01-02",
         mkTx "t4" "fourth" 20 "Food" "2025-01-04"] := by
    have hfield : (parseSortBy "amount-asc").1 = "amount" := by decide
    have horder :
        (if jsToLower (parseSortBy "amount-asc").2 = "asc" then (1:ℚ) else -1)
          = 1 := by
      rw [if_pos (by decide)]
    have hcmp : ∀ a b : Transaction,
        sortCompare (fun _ => 0) "amount" 1 a b = (a.amount - b.amount) * 1 := by
      intro a b
      simp [sortCompare]
    simp only [sortTransactions]
    rw [hfield, horder]
    norm_num [demoTxns, stableSort, insortC, hcmp, mkTx]
  refine ⟨?_, ?_, ?_⟩
  · intro dateMs sortBy p l h
    simp only [sortTransactions]
    exact filter_stableSort _ p h l
  · rw [hsort]; rfl
  · rw [hsort]; norm_num [mkTx]

/-- Witness for C7's universally quantified stability statement, applied
to the equal-key class of amount -10 in the demo list. -/
theorem sortTransactions_stable_witness :
    (sortTransactions (fun _ => 0) demoTxns "amount-asc").filter
        (fun t => t.amount == -10)
      = demoTxns.filter (fun t => t.amount == -10) :=
  sortTransactions_stable.1 (fun _ => 0) "amount-asc"
    (fun t => t.amount == -10) demoTxns
    (by
      intro a b ha hb
      have ha' : a.amount = -10 := by simpa using ha
      have hb' : b.amount = -10 := by simpa using hb
      have hsplit : splitChar '-' "amount-asc" = ["amount", "asc"] := by decide
      simp only [parseSortBy, hsplit, List.headD, List.drop, sortCompare,
        jsToLower, String.reduceEq, reduceIte, ha', hb']
      ring)

/-! ## Claim C5 -/

/-- Claim C5: with a positive monthly budget set, a new transaction whose
amount plus the sum of the existing transactions of the submitted month
strictly exceeds the budget is rejected with no mutation and with the
budget, current spend, remaining headroom and overage in the message; a
new transaction bringing the month total exactly to the budget is
accepted; the check is not applied when editing. -/
theorem handleTransactionSubmit_budget_policy
    (st : Record) (draft : Draft) (txDate : String)
    (nowMs : Nat) (nowIso todayStr : String) (b spent : ℚ)
    (hb : st.settings.monthlyBudget = some b) (hpos : 0 < b)
    (hspent : spent = ((st.transactions.filter fun tx =>
        monthKeyOf tx.date == monthKeyOf txDate).map (·.amount)).sum) :
    (spent + draft.amount > b →
      handleTransactionSubmit none st draft txDate nowMs nowIso todayStr
        = (.rejected
            { budget := b, currentSpending := spent, remaining := b - spent,
              overage := spent + draft.amount - b }, st)) ∧
    (spent + draft.amount = b →
      handleTransactionSubmit none st draft txDate nowMs nowIso todayStr
        = (.added, (addTransaction st { draft with date := some txDate }
            nowMs nowIso todayStr).2)) ∧
    (∀ editId : String,
      (handleTransactionSubmit (some editId) st draft txDate
        nowMs nowIso todayStr).1 = SubmitResult.updated) := by
  subst hspent
  refine ⟨?_, ?_, ?_⟩
  · intro hover
    simp only [handleTransactionSubmit, checkBudgetLimit, hb]
    rw [if_pos hpos, if_pos hover]
  · intro hexact
    have hnot : ¬ (((st.transactions.filter fun tx =>
        monthKeyOf tx.date == monthKeyOf txDate).map (·.amount)).sum
          + draft.amount > b) := not_lt.mpr (le_of_eq hexact)
    simp only [handleTransactionSubmit, checkBudgetLimit, hb]
    rw [if_pos hpos, if_neg hnot]
  · intro editId
    simp [handleTransactionSubmit, checkBudgetLimit]

def budgetRecord : Record :=
  { version := "1.0.0"
    settings := { defaultSettings with monthlyBudget := some 100 }
    transactions := [mkTx "txn_1" "books" 80 "Books" "2025-05-03"]
    lastUpdated := "t" }

def draftOver : Draft :=
  { description := "concert", amount := 30, category := "Entertainment"
    date := some "2025-05-10" }

def draftExact : Draft :=
  { description := "cinema", amount := 20, category := "Entertainment"
    date := some "2025-05-10" }

/-- Witness for C5: budget 100, existing month total 80; adding 30 in that
month is rejected with overage 10, adding 20 is accepted. -/
theorem handleTransactionSubmit_budget_policy_witness :
    handleTransactionSubmit none budgetRecord draftOver "2025-05-10"
        7 "i" "2025-05-10"
      = (.rejected
          { budget := 100, currentSpending := 80, remaining := 20,
            overage := 10 }, budgetRecord) ∧
    (handleTransactionSubmit none budgetRecord draftExact "2025-05-10"
        7 "i" "2025-05-10").1 = SubmitResult.added := by
  have hfilt : budgetRecord.transactions.filter (fun tx =>
      monthKeyOf tx.date == monthKeyOf "2025-05-10")
        = budgetRecord.transactions := rfl
  have hspent : (80 : ℚ) = ((budgetRecord.transactions.filter fun tx =>
      monthKeyOf tx.date == monthKeyOf "2025-05-10").map (·.amount)).sum := by
    rw [hfilt]
    norm_num [budgetRecord, mkTx]
  constructor
  · have h1 := (handleTransactionSubmit_budget_policy budgetRecord draftOver
      "2025-05-10" 7 "i" "2025-05-10" 100 80 rfl (by norm_num) hspent).1
      (by norm_num [draftOver])
    rw [h1]
    norm_num [draftOver]
  · have h2 := (handleTransactionSubmit_budget_policy budgetRecord draftExact
      "2025-05-10" 7 "i" "2025-05-10" 100 80 rfl (by norm_num) hspent).2.1
      (by norm_num [draftExact])
    rw [h2]

/-! ## Claim C2 -/

def rateSettings : Settings :=
  { currency := "USD", monthlyBudget := none
    categories := DEFAULT_CATEGORIES, usdToRwf := 1000
    eurToRwf := EURO_TO_RWF }

def stRate : Record :=
  { version := "1.0.0", settings := rateSettings
    transactions := [mkTx "txn_1" "book" 1 "Books" "2025-04-01"]
    lastUpdated := "t" }

def patchRate : SettingsPatch :=
  { currency := some "RWF", monthlyBudget := none, categories := none
    usdToRwf := some 2000, eurToRwf := none }

/-- Claim C2, as stated, fails: changing currency USD→RWF while also
patching `usdToRwf` from 1000 to 2000 rewrites the stored amount 1 USD to
1000 RWF — the rate persisted at the start of the call — not to the 2000
RWF the claim predicts from the patched rate table (which is what
conversion under the merged settings would give). -/
theorem updateSettings_patched_rate_unused_counterexample :
    ((updateSettings stRate patchRate "now").2.transactions.map (·.amount))
      = [1000] ∧
    convertCurrency (mergeSettings stRate.settings patchRate) 1 "USD" "RWF"
      = 2000 ∧
    (1000 : ℚ) ≠ 2000 := by
  have hconv : convertCurrency rateSettings 1 "USD" "RWF" = 1000 := by
    have hjs : jsOr rateSettings.usdToRwf USD_TO_RWF = 1000 := by
      rw [show rateSettings.usdToRwf = 1000 from rfl, jsOr,
        if_neg (by norm_num)]
    have hr : round2 ((1:ℚ) / (1 / 1000) * 1) = ((100000:ℤ):ℚ) / 100 :=
      round2_eval _ 100000 (by norm_num) (by norm_num)
    simp only [convertCurrency, getCurrencyRates, hjs, String.reduceEq,
      reduceIte, Option.getD_some]
    rw [hr]
    norm_num
  refine ⟨?_, ?_, by norm_num⟩
  · have hcur : rateSettings.currency = "USD" := rfl
    have hbud : rateSettings.monthlyBudget = none := rfl
    simp [updateSettings, stRate, patchRate, hcur, hbud, hconv, jsOrS,
      DEFAULT_CURRENCY, mkTx]
  · have hm : mergeSettings stRate.settings patchRate
        = { currency := "RWF", monthlyBudget := none
            categories := DEFAULT_CATEGORIES, usdToRwf := 2000
            eurToRwf := EURO_TO_RWF } := rfl
    have hjs : jsOr (2000 : ℚ) USD_TO_RWF = 2000 := by
      rw [jsOr, if_neg (by norm_num)]
    have hr : round2 ((1:ℚ) / (1 / 2000) * 1) = ((200000:ℤ):ℚ) / 100 :=
      round2_eval _ 200000 (by norm_num) (by norm_num)
    rw [hm]
    simp only [convertCurrency, getCurrencyRates, hjs, String.reduceEq,
      reduceIte, Option.getD_some]
    rw [hr]
    norm_num

/-- Claim C2 (amended): when the patch changes the currency, every
transaction amount and a truthy monthly budget are rewritten with
`convertCurrency` under the settings persisted at the start of the call
(the old rate table); rate fields present in the patch are stored with the
merged settings but do not affect this conversion. -/
theorem updateSettings_currency_rewrite_old_rates
    (st : Record) (patch : SettingsPatch) (nowIso : String) (c : String)
    (hc : patch.currency = some c) (hne : c ≠ "")
    (hdiff : c ≠ jsOrS st.settings.currency DEFAULT_CURRENCY) :
    (updateSettings st patch nowIso).2.transactions
      = st.transactions.map (fun t =>
          { t with
            amount := convertCurrency st.settings t.amount
              (jsOrS st.settings.currency DEFAULT_CURRENCY) c }) ∧
    (updateSettings st patch nowIso).2.settings.currency = c ∧
    (∀ rate : ℚ, patch.usdToRwf = some rate →
      (updateSettings st patch nowIso).2.settings.usdToRwf = rate) ∧
    (∀ rate : ℚ, patch.eurToRwf = some rate →
      (updateSettings st patch nowIso).2.settings.eurToRwf = rate) ∧
    (∀ b : ℚ, st.settings.monthlyBudget = some b → b ≠ 0 →
      patch.monthlyBudget = none →
      (updateSettings st patch nowIso).2.settings.monthlyBudget
        = some (convertCurrency st.settings b
            (jsOrS st.settings.currency DEFAULT_CURRENCY) c)) := by
  have hcond : c ≠ "" ∧ c ≠ jsOrS st.settings.currency DEFAULT_CURRENCY :=
    ⟨hne, hdiff⟩
  refine ⟨?_, ?_, ?_, ?_, ?_⟩
  · simp only [updateSettings, hc]
    rw [if_pos hcond]
  · simp only [updateSettings, hc, mergeSettings]
    rw [if_pos hcond]
    simp
  · intro rate hrate
    simp only [updateSettings, hc, mergeSettings, hrate]
    rw [if_pos hcond]
    simp
  · intro rate hrate
    simp only [updateSettings, hc, mergeSettings, hrate]
    rw [if_pos hcond]
    simp
  · intro b hbm hb0 hpn
    simp only [updateSettings, hc, mergeSettings, hpn, hbm]
    rw [if_pos hcond]
    simp [hb0]

/-- Witness for C2 (amended) at the concrete USD→RWF change with a
patched usdToRwf of 2000: the stored amount is the old-rate conversion and
the patched rate is persisted for later use. -/
theorem updateSettings_currency_rewrite_old_rates_witness :
    (updateSettings stRate patchRate "now").2.transactions
      = stRate.transactions.map (fun t =>
          { t with
            amount := convertCurrency stRate.settings t.amount
              (jsOrS stRate.settings.currency DEFAULT_CURRENCY) "RWF" }) ∧
    (updateSettings stRate patchRate "now").2.settings.currency = "RWF" ∧
    (updateSettings stRate patchRate "now").2.settings.usdToRwf = 2000 := by
  have h := updateSettings_currency_rewrite_old_rates stRate patchRate
    "now" "RWF" rfl (by decide) (by decide)
  exact ⟨h.1, h.2.1, h.2.2.1 2000 rfl⟩

end FinanceTracker
